import Mathlib

/-!
Formal model of the typed async-socket messaging layer of the onoro web client
(`src/web/src/util/status.ts` and `src/web/src/util/async_sockets.ts`).

JavaScript runtime values flowing through the wire layer are modelled by the
mutual inductive family `JSValue`/`JSList`/`JSFields`: JSON-expressible values
(`null`, booleans, numbers, strings, arrays, and objects as ordered key/value
field lists).  JavaScript objects are association lists; property access
(`getField`) returns the first binding, and access to an absent property is
modelled as `null` (the code under study only reads properties whose presence
it has checked, so the `undefined`/`null` distinction is never exercised).

The check `status.status in StatusCode` uses the JavaScript `in` operator on
the compiled enum object, and `in` traverses the prototype chain: besides the
enum's own keys `["Ok", "MessageTimeout", "NotFound"]` it also finds every
property inherited from `Object.prototype` (`toString`, `constructor`,
`hasOwnProperty`, ...).  Since these predicates run on untrusted inbound wire
data (the `JSON.parse` reviver applies `isSerializedStatus` to every parsed
node), the model includes the inherited keys in `inStatusCode`.
-/

namespace AsyncSocket

mutual
inductive JSValue where
  | null
  | bool (b : Bool)
  | num (n : Int)
  | str (s : String)
  | arr (elems : JSList)
  | obj (fields : JSFields)
deriving DecidableEq
inductive JSList where
  | nil
  | cons (head : JSValue) (tail : JSList)
deriving DecidableEq
inductive JSFields where
  | nil
  | cons (key : String) (val : JSValue) (tail : JSFields)
deriving DecidableEq
end

/-- Property-presence test: the JavaScript `key in object` check on an
object's own fields. -/
def hasField : JSFields → String → Bool
  | .nil, _ => false
  | .cons k _ rest, key => k == key || hasField rest key

/-- Property access `object[key]`: first binding wins; absent modelled as
`null`. -/
def getField : JSFields → String → JSValue
  | .nil, _ => .null
  | .cons k v rest, key => if k == key then v else getField rest key

/-- Builds a `JSFields` association list from a Lean list of pairs. -/
def fieldsOf : List (String × JSValue) → JSFields
  | [] => .nil
  | (k, v) :: rest => .cons k v (fieldsOf rest)

/-- Builds a `JSList` from a Lean list. -/
def listOf : List JSValue → JSList
  | [] => .nil
  | v :: rest => .cons v (listOf rest)

/-- The `typeof v === 'string'` check. -/
def isStringVal : JSValue → Bool
  | .str _ => true
  | _ => false

/-- The `Array.isArray(v)` check. -/
def isArrayVal : JSValue → Bool
  | .arr _ => true
  | _ => false

/-- Keys of the `StatusCode` string enum from `status.ts`. -/
def statusCodeKeys : List String := ["Ok", "MessageTimeout", "NotFound"]

/-- String-keyed properties a plain object inherits from `Object.prototype`
(ECMA-262, including the Annex B legacy accessors present in browsers) —
the TypeScript string enum compiles to a plain object, so the `in` operator
finds these on its prototype chain. -/
def objectProtoKeys : List String :=
  ["constructor", "hasOwnProperty", "isPrototypeOf", "propertyIsEnumerable",
   "toLocaleString", "toString", "valueOf", "__proto__", "__defineGetter__",
   "__defineSetter__", "__lookupGetter__", "__lookupSetter__"]

/-- Membership test `tag in StatusCode`: the `in` operator sees the enum's
own keys and everything inherited from `Object.prototype`. -/
def inStatusCode (tag : String) : Bool :=
  statusCodeKeys.contains tag || objectProtoKeys.contains tag

/-- Translation of `isStatus` from `status.ts`: a non-null object whose
`status` field is a string passing the `in StatusCode` check, and which
either has the `Ok` tag together with a `value` field, or has a string
`message` field. -/
def isStatus : JSValue → Bool
  | .obj fs =>
      hasField fs "status" &&
      (match getField fs "status" with
       | .str tag =>
           inStatusCode tag &&
           ((tag == "Ok" && hasField fs "value") ||
            (hasField fs "message" && isStringVal (getField fs "message")))
       | _ => false)
  | _ => false

/-- Translation of `isSerializedStatus` from `status.ts`: a non-null object
with `status` and `payload` fields whose `status` is a string passing the
`in StatusCode` check, and whose `payload` is a string unless the tag is
`Ok`. -/
def isSerializedStatus : JSValue → Bool
  | .obj fs =>
      hasField fs "status" &&
      hasField fs "payload" &&
      (match getField fs "status" with
       | .str tag =>
           inStatusCode tag &&
           (tag == "Ok" || isStringVal (getField fs "payload"))
       | _ => false)
  | _ => false

/-- Translation of `serializeStatus` from `status.ts`.  `isOk` is the tag
comparison `status.status === StatusCode.Ok`; the `Ok` branch emits
`{status, payload: value}` and the error branch `{status, payload: message}`.
The function is only ever applied to values passing `isStatus`; on
non-objects the model returns the argument unchanged. -/
def serializeStatus (status : JSValue) : JSValue :=
  match status with
  | .obj fs =>
      if getField fs "status" == .str "Ok" then
        .obj (fieldsOf [("status", getField fs "status"), ("payload", getField fs "value")])
      else
        .obj (fieldsOf [("status", getField fs "status"), ("payload", getField fs "message")])
  | v => v

/-- Translation of `deserializeStatus` from `status.ts`.  The declared return
type is `Status | null`, but neither return statement produces `null`: the
`Ok` tag yields `{status, value: payload}` and any other tag yields
`{status, message: payload}` (the `as string` cast is a compile-time-only
assertion with no runtime effect).  On non-objects the model returns the
argument unchanged. -/
def deserializeStatus (status : JSValue) : JSValue :=
  match status with
  | .obj fs =>
      if getField fs "status" == .str "Ok" then
        .obj (fieldsOf [("status", getField fs "status"), ("value", getField fs "payload")])
      else
        .obj (fieldsOf [("status", getField fs "status"), ("message", getField fs "payload")])
  | v => v

/-- The two error members of `StatusCode` (`ErrStatusCode` in `status.ts`). -/
inductive ErrStatusCode where
  | messageTimeout
  | notFound
deriving DecidableEq

/-- Wire tag of an error code. -/
def ErrStatusCode.tag : ErrStatusCode → String
  | .messageTimeout => "MessageTimeout"
  | .notFound => "NotFound"

/-- Translation of `makeOkStatus` from `status.ts`: `{status: 'Ok', value}`. -/
def makeOkStatus (value : JSValue) : JSValue :=
  .obj (fieldsOf [("status", .str "Ok"), ("value", value)])

/-- Translation of `makeErrStatus` from `status.ts`: `{status, message}`. -/
def makeErrStatus (code : ErrStatusCode) (message : String) : JSValue :=
  .obj (fieldsOf [("status", .str code.tag), ("message", .str message)])

/-!
Wire codec.  `sendMessage` serializes a frame with
`JSON.stringify(data, replacer)` where the replacer substitutes
`serializeStatus(value)` for every value passing `isStatus`; the substituted
object's `payload` is then itself processed recursively (top-down walk).
`parseMessage` applies `JSON.parse(text, reviver)` where the reviver
substitutes `deserializeStatus(value)` for every value passing
`isSerializedStatus`, innermost values first (bottom-up walk).  The text
layer itself is the identity on JSON values, so the codec is modelled as the
two substitution walks `encodeValue` and `decodeValue`.

In `encodeValue`, the payload of a substituted status node is looked up in
the already-encoded field list; by `getField_encodeFields` this is the same
value as encoding the looked-up original payload, which is what the
stringify walk does (substitute first, then recurse into the substituted
payload).
-/

mutual
def encodeValue : JSValue → JSValue
  | .arr xs => .arr (encodeList xs)
  | .obj fs =>
      if isStatus (.obj fs) then
        if getField fs "status" == .str "Ok" then
          .obj (fieldsOf [("status", getField fs "status"),
                          ("payload", getField (encodeFields fs) "value")])
        else
          .obj (fieldsOf [("status", getField fs "status"),
                          ("payload", getField (encodeFields fs) "message")])
      else
        .obj (encodeFields fs)
  | v => v
def encodeList : JSList → JSList
  | .nil => .nil
  | .cons v rest => .cons (encodeValue v) (encodeList rest)
def encodeFields : JSFields → JSFields
  | .nil => .nil
  | .cons k v rest => .cons k (encodeValue v) (encodeFields rest)
end

mutual
def decodeValue : JSValue → JSValue
  | .arr xs => .arr (decodeList xs)
  | .obj fs =>
      let w := JSValue.obj (decodeFields fs)
      if isSerializedStatus w then deserializeStatus w else w
  | v => v
def decodeList : JSList → JSList
  | .nil => .nil
  | .cons v rest => .cons (decodeValue v) (decodeList rest)
def decodeFields : JSFields → JSFields
  | .nil => .nil
  | .cons k v rest => .cons k (decodeValue v) (decodeFields rest)
end

/-- Encoding a field list commutes with property lookup: looking a key up in
the encoded fields gives the encoding of the original property (absent
properties are `null` on both sides since `encodeValue .null = .null`). -/
theorem getField_encodeFields : ∀ (fs : JSFields) (key : String),
    getField (encodeFields fs) key = encodeValue (getField fs key)
  | .nil, key => by simp [encodeFields, getField, encodeValue]
  | .cons k v rest, key => by
      by_cases h : k = key
      · simp [encodeFields, getField, h]
      · simp only [encodeFields, getField, beq_iff_eq, if_neg h,
          getField_encodeFields rest key]

/-- Canonical status records: exactly the objects produced by `makeOkStatus`
and `makeErrStatus` — `{status: 'Ok', value}` or `{status: err-tag, message}`
with a string message and nothing else. -/
def isCanonStatus : JSFields → Bool
  | .cons k1 (.str tag) (.cons k2 v .nil) =>
      k1 == "status" &&
      ((tag == "Ok" && k2 == "value") ||
       ((tag == "MessageTimeout" || tag == "NotFound") && k2 == "message" && isStringVal v))
  | _ => false

/-!
The substitution codec is inverse on values that (a) contain no value already
shaped like the two-field serialized form with a tag the `in` check accepts —
enum key or inherited `Object.prototype` key — since such a value is
swallowed by the reviver's inverse substitution, and (b) contain statuses
only in the canonical constructor shape (extra fields would be dropped by
`serializeStatus`).  `wireSafe` captures both conditions through the same
`isSerializedStatus`/`isStatus` predicates the program runs.
-/

mutual
def wireSafe : JSValue → Bool
  | .arr xs => wireSafeList xs
  | .obj fs =>
      !isSerializedStatus (.obj fs) &&
      (!isStatus (.obj fs) || isCanonStatus fs) &&
      wireSafeFields fs
  | _ => true
def wireSafeList : JSList → Bool
  | .nil => true
  | .cons v rest => wireSafe v && wireSafeList rest
def wireSafeFields : JSFields → Bool
  | .nil => true
  | .cons _ v rest => wireSafe v && wireSafeFields rest
end

/-- A value passing the string test is a string. -/
theorem isStringVal_elim : ∀ (v : JSValue), isStringVal v = true → ∃ s, v = .str s
  | .str s, _ => ⟨s, rfl⟩
  | .null, h => Bool.noConfusion h
  | .bool _, h => Bool.noConfusion h
  | .num _, h => Bool.noConfusion h
  | .arr _, h => Bool.noConfusion h
  | .obj _, h => Bool.noConfusion h

/-- A field list passing `isCanonStatus` is literally one of the two
canonical shapes. -/
theorem isCanonStatus_elim (fs : JSFields) (hc : isCanonStatus fs = true) :
    (∃ pv, fs = .cons "status" (.str "Ok") (.cons "value" pv .nil)) ∨
    (∃ tag m, (tag = "MessageTimeout" ∨ tag = "NotFound") ∧
        fs = .cons "status" (.str tag) (.cons "message" (.str m) .nil)) := by
  rcases fs with _ | ⟨k1, v1, fs2⟩
  · exact Bool.noConfusion (show false = true from hc)
  rcases fs2 with _ | ⟨k2, pv, fs3⟩
  · cases v1 <;> exact Bool.noConfusion (show false = true from hc)
  rcases fs3 with _ | ⟨k3, v3, fs4⟩
  case cons.cons.cons =>
    cases v1 <;> exact Bool.noConfusion (show false = true from hc)
  cases v1 with
  | str tag =>
      have hc' : (k1 == "status" &&
          ((tag == "Ok" && k2 == "value") ||
           ((tag == "MessageTimeout" || tag == "NotFound") && k2 == "message" &&
            isStringVal pv))) = true := hc
      clear hc
      simp only [Bool.and_eq_true, Bool.or_eq_true, beq_iff_eq] at hc'
      obtain ⟨rfl, hrest⟩ := hc'
      rcases hrest with ⟨rfl, rfl⟩ | ⟨⟨htag, rfl⟩, hpv⟩
      · exact Or.inl ⟨pv, rfl⟩
      · obtain ⟨m, rfl⟩ := isStringVal_elim pv hpv
        exact Or.inr ⟨tag, m, htag, rfl⟩
  | null => exact Bool.noConfusion (show false = true from hc)
  | bool b => exact Bool.noConfusion (show false = true from hc)
  | num n => exact Bool.noConfusion (show false = true from hc)
  | arr xs => exact Bool.noConfusion (show false = true from hc)
  | obj gs => exact Bool.noConfusion (show false = true from hc)

mutual
theorem decode_encodeValue : ∀ (v : JSValue), wireSafe v = true →
    decodeValue (encodeValue v) = v
  | .null, _ => rfl
  | .bool _, _ => rfl
  | .num _, _ => rfl
  | .str _, _ => rfl
  | .arr xs, h => by
      simp only [wireSafe] at h
      simp only [encodeValue, decodeValue, decode_encodeList xs h]
  | .obj fs, h => by
      simp only [wireSafe, Bool.and_eq_true, Bool.or_eq_true, Bool.not_eq_true'] at h
      obtain ⟨⟨h1, h2⟩, h3⟩ := h
      cases hst : isStatus (.obj fs) with
      | false =>
          simp only [encodeValue, hst, Bool.false_eq_true, if_false, decodeValue,
            decode_encodeFields fs h3, h1]
      | true =>
          have hc : isCanonStatus fs = true := by
            rcases h2 with h2 | h2
            · rw [hst] at h2; exact absurd h2 (by simp)
            · exact h2
          rcases isCanonStatus_elim fs hc with ⟨pv, rfl⟩ | ⟨tag, m, htag, rfl⟩
          · have hpv : wireSafe pv = true := by
              simp only [wireSafeFields, Bool.and_eq_true] at h3
              exact h3.2.1
            simp [encodeValue, encodeFields, getField, fieldsOf, decodeValue,
              decodeFields, isStatus, isSerializedStatus, deserializeStatus,
              hasField, inStatusCode, statusCodeKeys, isStringVal,
              decode_encodeValue pv hpv]
          · rcases htag with rfl | rfl <;>
              simp [encodeValue, hst, encodeFields, getField, fieldsOf,
                decodeValue, decodeFields, isSerializedStatus, deserializeStatus,
                hasField, inStatusCode, statusCodeKeys, isStringVal]
theorem decode_encodeList : ∀ (xs : JSList), wireSafeList xs = true →
    decodeList (encodeList xs) = xs
  | .nil, _ => rfl
  | .cons v rest, h => by
      simp only [wireSafeList, Bool.and_eq_true] at h
      simp only [encodeList, decodeList, decode_encodeValue v h.1,
        decode_encodeList rest h.2]
theorem decode_encodeFields : ∀ (fs : JSFields), wireSafeFields fs = true →
    decodeFields (encodeFields fs) = fs
  | .nil, _ => rfl
  | .cons k v rest, h => by
      simp only [wireSafeFields, Bool.and_eq_true] at h
      simp only [encodeFields, decodeFields, decode_encodeValue v h.1,
        decode_encodeFields rest h.2]
end

/-!
Connection model.  `AsyncSocketContext` holds a listener registry, a table of
outstanding calls keyed by uuid, and the per-call deadline timers.  The model
makes the implicit runtime state explicit:

* `timers` records every `setTimeout` ever scheduled, in scheduling order;
  a timeout id is an index into this list.  `cancelled` is set by
  `clearTimeout`; `fired` marks a timer whose callback already ran (the
  runtime fires a live timer at most once).  `fireTimer` is the scheduler
  delivering the timeout callback of `addTimeout`.
* `resolutions` logs every invocation of a pending call's `resolve` handle,
  `handled` every invocation of a registered listener callback, and `sent`
  every frame written to the socket (already encoded).
* `uuidv4` is nondeterministic, so the minted uuid is a parameter of `call`.
* the browser `WebSocket` and its url are outside the model; `onMessage`
  takes the already-parsed inbound data, with `none` standing for inputs on
  which `JSON.parse` throws (caught, yielding `null`) or non-string data.
-/

/-- Value of the `listeners` map: the `ListenerInfo` union, tagged `'emit'`
or `'call'`.  The call callback is the registered user handler, abstracted
as the `Status` value its promise resolves with. -/
inductive ListenerInfo where
  | emitListener
  | callListener (callback : JSList → JSValue)

/-- One scheduled `setTimeout` from `addTimeout`, with the data captured by
its closure. -/
structure Timer where
  uuid : String
  event_name : String
  timeout_ms : Nat
  cancelled : Bool
  fired : Bool
deriving DecidableEq

/-- Explicit state of an `AsyncSocketContext`. -/
structure Conn where
  timeout : Nat
  listeners : List (String × ListenerInfo)
  outstanding_calls : List (String × Nat)
  timers : List Timer
  resolutions : List (String × JSValue)
  handled : List (String × JSList)
  sent : List JSValue
  log : List String

/-- Constructor state: `this.timeout = 1000`, empty maps. -/
def initConn : Conn :=
  { timeout := 1000, listeners := [], outstanding_calls := [], timers := [],
    resolutions := [], handled := [], sent := [], log := [] }

/-- JavaScript `Map.prototype.set`: replace in place or append. -/
def assocSet {α : Type} : List (String × α) → String → α → List (String × α)
  | [], key, v => [(key, v)]
  | (k, v') :: rest, key, v =>
      if k == key then (key, v) :: rest else (k, v') :: assocSet rest key v

/-- JavaScript `Map.prototype.delete`. -/
def assocDelete {α : Type} (l : List (String × α)) (key : String) : List (String × α) :=
  l.filter (fun p => p.1 != key)

/-- The `clearTimeout` call: deactivates the timer with the given id. -/
def cancelTimer : List Timer → Nat → List Timer
  | [], _ => []
  | t :: rest, 0 => { t with cancelled := true } :: rest
  | t :: rest, n + 1 => t :: cancelTimer rest n

/-- Bookkeeping that a timer's callback has been delivered. -/
def markTimerFired : List Timer → Nat → List Timer
  | [], _ => []
  | t :: rest, 0 => { t with fired := true } :: rest
  | t :: rest, n + 1 => t :: markTimerFired rest n

/-- Translation of `sendMessage`: `JSON.stringify` with the status-replacer
(`encodeValue`), written to the socket. -/
def sendMessage (c : Conn) (data : JSValue) : Conn :=
  { c with sent := c.sent ++ [encodeValue data] }

/-- Translation of `parseMessage`: non-string data and text on which
`JSON.parse` throws give `null` (the `catch` branch); otherwise the parsed
value with the status-reviver applied (`decodeValue`). -/
def parseMessage : Option JSValue → JSValue
  | none => .null
  | some v => decodeValue v

/-- Timeout message built in `addTimeout`:
`Async socket call <event> timed out after <timeout_ms / 1000> second[s]`.
JavaScript prints the division's float result; for the whole-second timeouts
the class uses (the constructor fixes `timeout` at 1000 and nothing mutates
it) that printing agrees with natural division. -/
def timeoutMessage (event_name : String) (timeout_ms : Nat) : String :=
  "Async socket call " ++ event_name ++ " timed out after " ++
    toString (timeout_ms / 1000) ++ " second" ++
    (if timeout_ms == 1000 then "" else "s")

/-- The status the timeout callback resolves with:
`makeErrStatus(StatusCode.MessageTimeout, ...)`. -/
def timeoutErrStatus (event_name : String) (timeout_ms : Nat) : JSValue :=
  makeErrStatus .messageTimeout (timeoutMessage event_name timeout_ms)

/-- Translation of `addTimeout`: schedules the deadline timer and returns
its timeout id (the body of the scheduled callback is `fireTimer`). -/
def addTimeout (c : Conn) (event_name uuid : String) (timeout_ms : Nat) :
    Nat × Conn :=
  (c.timers.length,
   { c with timers := c.timers ++
      [{ uuid := uuid, event_name := event_name, timeout_ms := timeout_ms,
         cancelled := false, fired := false }] })

/-- Delivery of the callback scheduled by `addTimeout`: if the timer is
still live, it deletes the uuid from `outstanding_calls` and resolves the
call with the `MessageTimeout` error status.  A cancelled or already-fired
timer never runs. -/
def fireTimer (c : Conn) (tid : Nat) : Conn :=
  match c.timers.get? tid with
  | none => c
  | some t =>
      if t.cancelled || t.fired then c
      else
        { c with
            timers := markTimerFired c.timers tid,
            outstanding_calls := assocDelete c.outstanding_calls t.uuid,
            resolutions := c.resolutions ++
              [(t.uuid, timeoutErrStatus t.event_name t.timeout_ms)] }

/-- Translation of `handleResponse`: an unknown uuid is logged and dropped;
a known uuid has its deadline timer cleared and its `resolve` handle invoked
with the carried status.  The entry itself stays in `outstanding_calls`
(the method never deletes it). -/
def handleResponse (c : Conn) (uuid : String) (status : JSValue) : Conn :=
  match c.outstanding_calls.lookup uuid with
  | none =>
      { c with log := c.log ++ ["Error: received event with unknown uuid: " ++ uuid] }
  | some tid =>
      { c with timers := cancelTimer c.timers tid,
               resolutions := c.resolutions ++ [(uuid, status)] }

/-- Translation of `call`: mint a uuid (parameter), schedule the deadline
timer with the connection's `timeout`, store the pending call, and send the
`Call` frame. -/
def call (c : Conn) (event_name uuid : String) (args : JSList) : Conn :=
  let scheduled := addTimeout c event_name uuid c.timeout
  let c2 := { scheduled.2 with
    outstanding_calls := assocSet scheduled.2.outstanding_calls uuid scheduled.1 }
  sendMessage c2 (.obj (fieldsOf
    [("call", .obj (fieldsOf
      [("event", .str event_name), ("uuid", .str uuid), ("args", .arr args)]))]))

/-- Translation of `emit`: send an `Emit` frame; the rest-parameter `args`
is always an array (empty when no arguments are passed). -/
def emit (c : Conn) (event_name : String) (args : JSList) : Conn :=
  sendMessage c (.obj (fieldsOf
    [("emit", .obj (fieldsOf [("event", .str event_name), ("args", .arr args)]))]))

/-- Translation of `on` (`on` is reserved in Lean, hence the name):
registers a notification listener (last write wins, as for `Map.set`). -/
def onListen (c : Conn) (event_name : String) : Conn :=
  { c with listeners := assocSet c.listeners event_name .emitListener }

/-- Translation of `respond`: registers a call handler. -/
def respond (c : Conn) (event_name : String) (callback : JSList → JSValue) : Conn :=
  { c with listeners := assocSet c.listeners event_name (.callListener callback) }

/-- Translation of `isEmitMessage`: object with a string `event` and an
array `args` (`Array.isArray` rejects `null`). -/
def isEmitMessage : JSValue → Bool
  | .obj fs =>
      hasField fs "event" && isStringVal (getField fs "event") &&
      hasField fs "args" && isArrayVal (getField fs "args")
  | _ => false

/-- Translation of `isCallMessage`: additionally a string `uuid`. -/
def isCallMessage : JSValue → Bool
  | .obj fs =>
      hasField fs "event" && isStringVal (getField fs "event") &&
      hasField fs "uuid" && isStringVal (getField fs "uuid") &&
      hasField fs "args" && isArrayVal (getField fs "args")
  | _ => false

/-- Translation of `isResponseMessage`: a string `uuid` and a `status`
passing `isStatus`. -/
def isResponseMessage : JSValue → Bool
  | .obj fs =>
      hasField fs "uuid" && isStringVal (getField fs "uuid") &&
      hasField fs "status" && isStatus (getField fs "status")
  | _ => false

/-- Translation of `isMessage`: an object carrying a valid frame under one
of the keys `emit`, `call`, `response`. -/
def isMessage : JSValue → Bool
  | .obj fs =>
      (hasField fs "emit" && isEmitMessage (getField fs "emit")) ||
      (hasField fs "call" && isCallMessage (getField fs "call")) ||
      (hasField fs "response" && isResponseMessage (getField fs "response"))
  | _ => false

/-- Spread of `message.args` into the callback's arguments. -/
def argsOf : JSValue → JSList
  | .arr xs => xs
  | _ => .nil

/-- Translation of `handleEmit`: unknown events and call-typed listeners are
logged and dropped; an emit listener's callback is invoked with the args.
On a non-object payload (reachable only through a mixed frame such as
`{"emit": null, "response": <valid>}`, which passes `isMessage` through the
response disjunct) the real method throws reading `message.event`; the
throw happens before any mutation and only rejects the async `onMessage`
promise, so the net state effect is the unchanged state the model returns. -/
def handleEmit (c : Conn) (message : JSValue) : Conn :=
  match message with
  | .obj fs =>
      match getField fs "event" with
      | .str ev =>
          match c.listeners.lookup ev with
          | none => { c with log := c.log ++ ["Unknown emit event: " ++ ev] }
          | some .emitListener =>
              { c with handled := c.handled ++ [(ev, argsOf (getField fs "args"))] }
          | some (.callListener _) =>
              { c with log := c.log ++ ["Received emit for call/response message: " ++ ev] }
      | _ => { c with log := c.log ++ ["Unknown emit event"] }
  | _ => c

/-- Translation of `handleCall`: unknown events and emit-typed listeners are
logged and dropped; a call listener's callback is invoked and its resolved
status is wrapped in a `Response` frame echoing the call's uuid. -/
def handleCall (c : Conn) (message : JSValue) : Conn :=
  match message with
  | .obj fs =>
      match getField fs "event" with
      | .str ev =>
          match c.listeners.lookup ev with
          | none => { c with log := c.log ++ ["Unknown call event: " ++ ev] }
          | some .emitListener =>
              { c with log := c.log ++ ["Received call for emit message: " ++ ev] }
          | some (.callListener callback) =>
              let args := argsOf (getField fs "args")
              let c1 := { c with handled := c.handled ++ [(ev, args)] }
              sendMessage c1 (.obj (fieldsOf
                [("response", .obj (fieldsOf
                  [("uuid", getField fs "uuid"), ("status", callback args)]))]))
      | _ => { c with log := c.log ++ ["Unknown call event"] }
  | _ => c

/-- Destructuring entry into `handleResponse` from an inbound frame: pulls
`uuid` and `status` out of the validated `Response` object. -/
def handleResponseFrame (c : Conn) (message : JSValue) : Conn :=
  match message with
  | .obj fs =>
      match getField fs "uuid" with
      | .str uuid => handleResponse c uuid (getField fs "status")
      | _ => { c with log := c.log ++ ["Error: received event with unknown uuid"] }
  | _ => c

/-- Translation of `onMessage`: parse the inbound data, drop ill-formed
messages with a log line, and otherwise dispatch on which frame key is
defined, in the source's order `emit`, `call`, `response`. -/
def onMessage (c : Conn) (data : Option JSValue) : Conn :=
  let message := parseMessage data
  if isMessage message then
    match message with
    | .obj fs =>
        if hasField fs "emit" then handleEmit c (getField fs "emit")
        else if hasField fs "call" then handleCall c (getField fs "call")
        else if hasField fs "response" then handleResponseFrame c (getField fs "response")
        else c
    | _ => c
  else { c with log := c.log ++ ["ill-formed message"] }

/-!
Capability registry.  The validity of an event name for `call` is the
type-level contract `EventName extends CallResponseEvents<ListenEvents,
EmitEvents>`: writing `call` at a name outside that set does not compile, so
no runtime step of the rejected program exists.  The type computation is
modelled on the event-name sets of the two event maps.
-/

/-- Inverse of the template-literal key `${T}_req` / `${T}_res`: strips the
suffix when the name ends with it (computed on the character list). -/
def stripSuffix (e sfx : String) : Option String :=
  if e.data.length < sfx.data.length then none
  else if e.data.drop (e.data.length - sfx.data.length) == sfx.data then
    some (String.mk (e.data.take (e.data.length - sfx.data.length)))
  else none

/-- Key set of `ToRequestEvents<Events>`: names `T` with `T_req` in the
map. -/
def toRequestEventNames (events : List String) : List String :=
  events.filterMap (fun e => stripSuffix e "_req")

/-- Key set of `ToResponseEvents<Events>`: names `T` with `T_res` in the
map. -/
def toResponseEventNames (events : List String) : List String :=
  events.filterMap (fun e => stripSuffix e "_res")

/-- Translation of `CallResponseEvents<ResEvents, ReqEvents>`: names with a
`*_req` form in `ReqEvents` and a `*_res` form in `ResEvents`. -/
def callResponseEvents (resEvents reqEvents : List String) : List String :=
  (toRequestEventNames reqEvents).filter
    (fun e => (toResponseEventNames resEvents).contains e)

/-- The statically-checked `call` entry point: the generic bound admits only
event names in `CallResponseEvents<ListenEvents, EmitEvents>`; any other
name is a compile error, producing no runtime step and hence no frame. -/
def typedCall (listenEvents emitEvents : List String) (c : Conn)
    (event_name uuid : String) (args : JSList) : Option Conn :=
  if (callResponseEvents listenEvents emitEvents).contains event_name then
    some (call c event_name uuid args)
  else none

/-- Listen-side event map of the onoro client (`ServerToClient` in
`socket_msgs.tsx`). -/
def onoroListenEvents : List String := ["new_game_res"]

/-- Emit-side event map of the onoro client (`ClientToServer`). -/
def onoroEmitEvents : List String := ["new_game_req"]

/-!
Elimination lemmas exposing what the boolean validators guarantee.
-/

/-- Unfolding of a successful `isStatus` test. -/
theorem isStatus_elim : ∀ (v : JSValue), isStatus v = true →
    ∃ fs tag, v = .obj fs ∧ hasField fs "status" = true ∧
      getField fs "status" = .str tag ∧ inStatusCode tag = true ∧
      ((tag = "Ok" ∧ hasField fs "value" = true) ∨
       (hasField fs "message" = true ∧ isStringVal (getField fs "message") = true))
  | .obj fs, h => by
      simp only [isStatus, Bool.and_eq_true] at h
      obtain ⟨h1, h2⟩ := h
      cases hg : getField fs "status" <;> rw [hg] at h2 <;>
        try exact Bool.noConfusion h2
      rename_i tag
      simp only [Bool.and_eq_true, Bool.or_eq_true, beq_iff_eq] at h2
      exact ⟨fs, tag, rfl, h1, hg, h2.1, h2.2⟩
  | .null, h => Bool.noConfusion h
  | .bool _, h => Bool.noConfusion h
  | .num _, h => Bool.noConfusion h
  | .str _, h => Bool.noConfusion h
  | .arr _, h => Bool.noConfusion h

/-- Unfolding of a successful `isSerializedStatus` test. -/
theorem isSerializedStatus_elim : ∀ (v : JSValue), isSerializedStatus v = true →
    ∃ fs tag, v = .obj fs ∧ hasField fs "status" = true ∧
      hasField fs "payload" = true ∧ getField fs "status" = .str tag ∧
      inStatusCode tag = true ∧
      (tag = "Ok" ∨ isStringVal (getField fs "payload") = true)
  | .obj fs, h => by
      simp only [isSerializedStatus, Bool.and_eq_true] at h
      obtain ⟨⟨h1, h2⟩, h3⟩ := h
      cases hg : getField fs "status" <;> rw [hg] at h3 <;>
        try exact Bool.noConfusion h3
      rename_i tag
      simp only [Bool.and_eq_true, Bool.or_eq_true, beq_iff_eq] at h3
      exact ⟨fs, tag, rfl, h1, h2, hg, h3.1, h3.2⟩
  | .null, h => Bool.noConfusion h
  | .bool _, h => Bool.noConfusion h
  | .num _, h => Bool.noConfusion h
  | .str _, h => Bool.noConfusion h
  | .arr _, h => Bool.noConfusion h

/-- A cancelled timer slot after `clearTimeout`. -/
theorem getElem?_cancelTimer : ∀ (ts : List Timer) (n : Nat),
    (cancelTimer ts n)[n]? = ts[n]?.map (fun t => { t with cancelled := true })
  | [], n => by cases n <;> rfl
  | _ :: _, 0 => by simp [cancelTimer]
  | t :: rest, n + 1 => by
      simpa [cancelTimer] using getElem?_cancelTimer rest n

/-- A deleted key can no longer be looked up. -/
theorem lookup_assocDelete {α : Type} : ∀ (l : List (String × α)) (key : String),
    (assocDelete l key).lookup key = none
  | [], _ => rfl
  | (k, v) :: rest, key => by
      by_cases h : k = key
      · have hdrop : assocDelete ((k, v) :: rest) key = assocDelete rest key := by
          simp [assocDelete, List.filter_cons, h]
        rw [hdrop]
        exact lookup_assocDelete rest key
      · have hkeep : assocDelete ((k, v) :: rest) key = (k, v) :: assocDelete rest key := by
          simp [assocDelete, List.filter_cons, h]
        have hk : (key == k) = false := beq_eq_false_iff_ne.mpr (Ne.symm h)
        rw [hkeep]
        simp only [List.lookup, hk]
        exact lookup_assocDelete rest key

/-- C2: for every valid `Status` value — `Ok` around any payload value, or
`Err` with a recognized error code and a string message —
`deserializeStatus (serializeStatus s)` is structurally equal to `s`: same
tag, and same value (for `Ok`) or same message (for `Err`). -/
theorem status_roundtrip (v : JSValue) (code : ErrStatusCode) (m : String) :
    deserializeStatus (serializeStatus (makeOkStatus v)) = makeOkStatus v ∧
    deserializeStatus (serializeStatus (makeErrStatus code m)) = makeErrStatus code m := by
  refine ⟨?_, ?_⟩
  · simp [makeOkStatus, serializeStatus, deserializeStatus, getField, fieldsOf]
  · cases code <;>
      simp [makeErrStatus, ErrStatusCode.tag, serializeStatus, deserializeStatus,
        getField, fieldsOf]

/-- C8: a `Response` whose correlation id matches no entry of
`outstanding_calls` is logged and discarded — the state change is exactly
one log line: no resolve handle fires and every pending entry, timer and
listener is untouched. -/
theorem orphan_response_dropped (c : Conn) (uuid : String) (status : JSValue)
    (h : c.outstanding_calls.lookup uuid = none) :
    handleResponse c uuid status =
      { c with log := c.log ++ ["Error: received event with unknown uuid: " ++ uuid] } := by
  simp [handleResponse, h]

/-- Witness for C8 at a concrete state: the empty connection receives a
response for the never-issued uuid `u`. -/
theorem orphan_response_dropped_witness :
    initConn.outstanding_calls.lookup "u" = none ∧
    handleResponse initConn "u" (makeOkStatus .null) =
      { initConn with
          log := initConn.log ++ ["Error: received event with unknown uuid: " ++ "u"] } :=
  ⟨rfl, orphan_response_dropped initConn "u" (makeOkStatus .null) rfl⟩

/-- C9 counterexample: the claim says the predicates reject a success tag
missing its `value` field, but `isStatus` accepts `{status: 'Ok',
message: 'hi'}` — the `Ok`/`value` conjunct and the string-`message`
conjunct are independent disjuncts. -/
theorem isStatus_accepts_ok_without_value :
    isStatus (.obj (fieldsOf [("status", .str "Ok"), ("message", .str "hi")])) = true := by
  decide

/-- C9 (amended): the predicates reject non-objects, a missing or
non-string tag, a tag recognized by neither the enum's own keys nor the
keys inherited from `Object.prototype` (the `in` operator accepts both), an
error tag with an absent or non-string `message`/`payload`, and a missing
`payload` (for the serialized form); deviations from the claim: `isStatus`
accepts an `Ok` tag missing `value` when a string `message` field is
present, and both predicates accept inherited `Object.prototype` names such
as `toString` or `hasOwnProperty` as tags. -/
theorem statusPredicates_reject_malformed :
    (isStatus .null = false ∧ isSerializedStatus .null = false) ∧
    (∀ b, isStatus (.bool b) = false ∧ isSerializedStatus (.bool b) = false) ∧
    (∀ n, isStatus (.num n) = false ∧ isSerializedStatus (.num n) = false) ∧
    (∀ s, isStatus (.str s) = false ∧ isSerializedStatus (.str s) = false) ∧
    (∀ xs, isStatus (.arr xs) = false ∧ isSerializedStatus (.arr xs) = false) ∧
    (∀ fs, hasField fs "status" = false →
      isStatus (.obj fs) = false ∧ isSerializedStatus (.obj fs) = false) ∧
    (∀ fs, isStringVal (getField fs "status") = false →
      isStatus (.obj fs) = false ∧ isSerializedStatus (.obj fs) = false) ∧
    (∀ fs tag, getField fs "status" = .str tag → inStatusCode tag = false →
      isStatus (.obj fs) = false ∧ isSerializedStatus (.obj fs) = false) ∧
    (∀ fs, getField fs "status" = .str "Ok" → hasField fs "value" = false →
      isStringVal (getField fs "message") = false → isStatus (.obj fs) = false) ∧
    (∀ fs, hasField fs "payload" = false → isSerializedStatus (.obj fs) = false) ∧
    (∀ fs tag, getField fs "status" = .str tag → tag ≠ "Ok" →
      isStringVal (getField fs "message") = false → isStatus (.obj fs) = false) ∧
    (∀ fs tag, getField fs "status" = .str tag → tag ≠ "Ok" →
      isStringVal (getField fs "payload") = false → isSerializedStatus (.obj fs) = false) ∧
    isStatus (.obj (fieldsOf [("status", .str "toString"), ("message", .str "hi")])) = true ∧
    isSerializedStatus
      (.obj (fieldsOf [("status", .str "hasOwnProperty"), ("payload", .str "x")])) = true := by
  refine ⟨⟨rfl, rfl⟩, fun b => ⟨rfl, rfl⟩, fun n => ⟨rfl, rfl⟩, fun s => ⟨rfl, rfl⟩,
    fun xs => ⟨rfl, rfl⟩, ?_, ?_, ?_, ?_, ?_, ?_, ?_, by decide, by decide⟩
  · intro fs h
    constructor <;> [cases hst : isStatus (.obj fs);
      cases hst : isSerializedStatus (.obj fs)] <;> try rfl
    · obtain ⟨fs', tag, heq, h1, -⟩ := isStatus_elim _ hst
      cases heq; exact absurd h1 (by simp [h])
    · obtain ⟨fs', tag, heq, h1, -⟩ := isSerializedStatus_elim _ hst
      cases heq; exact absurd h1 (by simp [h])
  · intro fs h
    constructor <;> [cases hst : isStatus (.obj fs);
      cases hst : isSerializedStatus (.obj fs)] <;> try rfl
    · obtain ⟨fs', tag, heq, -, hg, -⟩ := isStatus_elim _ hst
      cases heq; rw [hg] at h; exact absurd h (by simp [isStringVal])
    · obtain ⟨fs', tag, heq, -, -, hg, -⟩ := isSerializedStatus_elim _ hst
      cases heq; rw [hg] at h; exact absurd h (by simp [isStringVal])
  · intro fs tag hg hin
    constructor <;> [cases hst : isStatus (.obj fs);
      cases hst : isSerializedStatus (.obj fs)] <;> try rfl
    · obtain ⟨fs', tag', heq, -, hg', hin', -⟩ := isStatus_elim _ hst
      cases heq; rw [hg] at hg'
      obtain rfl : tag = tag' := by injection hg'
      exact absurd hin' (by simp [hin])
    · obtain ⟨fs', tag', heq, -, -, hg', hin', -⟩ := isSerializedStatus_elim _ hst
      cases heq; rw [hg] at hg'
      obtain rfl : tag = tag' := by injection hg'
      exact absurd hin' (by simp [hin])
  · intro fs hg hval hmsg
    cases hst : isStatus (.obj fs)
    · rfl
    · obtain ⟨fs', tag', heq, -, hg', -, hcase⟩ := isStatus_elim _ hst
      cases heq; rw [hg] at hg'
      obtain rfl : "Ok" = tag' := by injection hg'
      rcases hcase with ⟨-, hv⟩ | ⟨-, hm⟩
      · exact absurd hv (by simp [hval])
      · exact absurd hm (by simp [hmsg])
  · intro fs h
    cases hst : isSerializedStatus (.obj fs)
    · rfl
    · obtain ⟨fs', tag, heq, -, h2, -⟩ := isSerializedStatus_elim _ hst
      cases heq; exact absurd h2 (by simp [h])
  · intro fs tag hg hok hmsg
    cases hst : isStatus (.obj fs)
    · rfl
    · obtain ⟨fs', tag', heq, -, hg', -, hcase⟩ := isStatus_elim _ hst
      cases heq; rw [hg] at hg'
      obtain rfl : tag = tag' := by injection hg'
      rcases hcase with ⟨htag, -⟩ | ⟨-, hm⟩
      · exact absurd htag hok
      · exact absurd hm (by simp [hmsg])
  · intro fs tag hg hok hpay
    cases hst : isSerializedStatus (.obj fs)
    · rfl
    · obtain ⟨fs', tag', heq, -, -, hg', -, hcase⟩ := isSerializedStatus_elim _ hst
      cases heq; rw [hg] at hg'
      obtain rfl : tag = tag' := by injection hg'
      rcases hcase with htag | hp
      · exact absurd htag hok
      · exact absurd hp (by simp [hpay])

/-- Witness for C9 (amended) at concrete malformed shapes: an unrecognized
tag and an error tag with a numeric message are both rejected. -/
theorem statusPredicates_reject_malformed_witness :
    (getField (fieldsOf [("status", .str "Bogus")]) "status" = .str "Bogus") ∧
    inStatusCode "Bogus" = false ∧
    isStatus (.obj (fieldsOf [("status", .str "Bogus")])) = false ∧
    isSerializedStatus (.obj (fieldsOf [("status", .str "Bogus")])) = false ∧
    isStatus (.obj (fieldsOf [("status", .str "NotFound"), ("message", .num 5)])) = false :=
  ⟨rfl, rfl,
    (statusPredicates_reject_malformed.2.2.2.2.2.2.2.1
      (fieldsOf [("status", .str "Bogus")]) "Bogus" rfl rfl).1,
    (statusPredicates_reject_malformed.2.2.2.2.2.2.2.1
      (fieldsOf [("status", .str "Bogus")]) "Bogus" rfl rfl).2,
    statusPredicates_reject_malformed.2.2.2.2.2.2.2.2.2.2.1
      (fieldsOf [("status", .str "NotFound"), ("message", .num 5)]) "NotFound"
      rfl (by decide) rfl⟩

/-- C10 counterexample: `isSerializedStatus` only checks field presence, so
a value with an extra field passes it, yet
`serializeStatus (deserializeStatus s)` rebuilds only the two-field record
and drops the extra field — the functions are not mutually inverse over
everything `isSerializedStatus` accepts. -/
theorem serialize_deserialize_not_inverse_extra_field :
    isSerializedStatus
      (.obj (fieldsOf [("status", .str "Ok"), ("payload", .null), ("extra", .null)])) = true ∧
    serializeStatus (deserializeStatus
      (.obj (fieldsOf [("status", .str "Ok"), ("payload", .null), ("extra", .null)]))) ≠
      .obj (fieldsOf [("status", .str "Ok"), ("payload", .null), ("extra", .null)]) := by
  decide

/-- C10 (amended): for every value satisfying `isSerializedStatus` —
including the prototype-chain tags the `in` operator admits —
`deserializeStatus` returns a non-null value satisfying `isStatus` (the
`null` branch of its declared return type is dead code), and on the
two-field record shape `{status, payload}` itself
`serializeStatus (deserializeStatus s) = s`, so the functions are mutually
inverse on exactly-two-field serialized records. -/
theorem deserialize_serialize_inverse :
    (∀ (s : JSValue), isSerializedStatus s = true →
       deserializeStatus s ≠ .null ∧ isStatus (deserializeStatus s) = true) ∧
    (∀ (t : String) (p : JSValue),
       isSerializedStatus (.obj (fieldsOf [("status", .str t), ("payload", p)])) = true →
       serializeStatus (deserializeStatus
         (.obj (fieldsOf [("status", .str t), ("payload", p)]))) =
         .obj (fieldsOf [("status", .str t), ("payload", p)])) := by
  constructor
  · intro s hs
    obtain ⟨fs, tag, rfl, h1, h2, hg, hin, hcase⟩ := isSerializedStatus_elim s hs
    by_cases ht : tag = "Ok"
    · subst ht
      simp only [deserializeStatus, hg]
      simp [isStatus, hasField, getField, fieldsOf, inStatusCode, statusCodeKeys]
    · have hp : isStringVal (getField fs "payload") = true := by
        rcases hcase with h | h
        · exact absurd h ht
        · exact h
      obtain ⟨pm, hpm⟩ := isStringVal_elim _ hp
      have hne : (JSValue.str tag == JSValue.str "Ok") = false := by
        simp [ht]
      simp only [deserializeStatus, hg, hne, Bool.false_eq_true, if_false]
      refine ⟨by simp [fieldsOf], ?_⟩
      rw [hpm]
      simp [isStatus, hasField, getField, fieldsOf, isStringVal, hin]
  · intro t p hp
    by_cases ht : t = "Ok"
    · subst ht
      simp [deserializeStatus, serializeStatus, getField, fieldsOf]
    · simp [deserializeStatus, serializeStatus, getField, fieldsOf, ht]

/-- Witness for C10 (amended) at the concrete serialized record
`{status: 'NotFound', payload: 'm'}`. -/
theorem deserialize_serialize_inverse_witness :
    isSerializedStatus (.obj (fieldsOf [("status", .str "NotFound"), ("payload", .str "m")])) = true ∧
    (deserializeStatus (.obj (fieldsOf [("status", .str "NotFound"), ("payload", .str "m")])) ≠ .null ∧
     isStatus (deserializeStatus
       (.obj (fieldsOf [("status", .str "NotFound"), ("payload", .str "m")]))) = true) ∧
    serializeStatus (deserializeStatus
      (.obj (fieldsOf [("status", .str "NotFound"), ("payload", .str "m")]))) =
      .obj (fieldsOf [("status", .str "NotFound"), ("payload", .str "m")]) :=
  ⟨by decide,
   deserialize_serialize_inverse.1
     (.obj (fieldsOf [("status", .str "NotFound"), ("payload", .str "m")])) (by decide),
   deserialize_serialize_inverse.2 "NotFound" (.str "m") (by decide)⟩

/-- A connection with one outstanding call `u` for event `new_game`, whose
deadline timer (id 0) is live. -/
def pendingTimer : Timer :=
  { uuid := "u", event_name := "new_game", timeout_ms := 1000,
    cancelled := false, fired := false }

/-- Sample state used to exercise the resolution paths at concrete inputs. -/
def pendingConn : Conn :=
  { initConn with outstanding_calls := [("u", 0)], timers := [pendingTimer] }

/-- C1 counterexample: after a matching `Response` is handled, the entry is
still in `outstanding_calls` — `handleResponse` clears the timer and
resolves but never deletes from the table, so removal is not what happens on
the success path (cancellation is). -/
theorem response_leaves_entry_in_table :
    ((handleResponse pendingConn "u" (makeOkStatus .null)).outstanding_calls.lookup "u").isSome
      = true := by
  decide

/-- C1 (amended): when a `Response` arrives whose correlation id matches a
pending call with a live deadline timer, the timer is cancelled and the
result handle is resolved exactly once with the carried status, but the
entry remains in the table; the timeout path can no longer fire for that
call because its timer is cancelled — cancellation, not removal, is the
guard on this path. -/
theorem response_resolves_and_cancels_timer (c : Conn) (uuid : String)
    (status : JSValue) (tid : Nat) (t : Timer)
    (hl : c.outstanding_calls.lookup uuid = some tid)
    (ht : c.timers[tid]? = some t)
    (hcan : t.cancelled = false) (hf : t.fired = false) :
    (handleResponse c uuid status).resolutions = c.resolutions ++ [(uuid, status)] ∧
    (handleResponse c uuid status).timers[tid]? = some { t with cancelled := true } ∧
    (handleResponse c uuid status).outstanding_calls = c.outstanding_calls ∧
    fireTimer (handleResponse c uuid status) tid = handleResponse c uuid status := by
  have hres : handleResponse c uuid status =
      { c with timers := cancelTimer c.timers tid,
               resolutions := c.resolutions ++ [(uuid, status)] } := by
    simp [handleResponse, hl]
  have htim : (handleResponse c uuid status).timers[tid]? =
      some { t with cancelled := true } := by
    rw [hres]
    simp [getElem?_cancelTimer, ht]
  refine ⟨by rw [hres], htim, by rw [hres], ?_⟩
  simp [fireTimer, htim]

/-- Witness for C1 (amended) at the concrete pending connection. -/
theorem response_resolves_and_cancels_timer_witness :
    pendingConn.outstanding_calls.lookup "u" = some 0 ∧
    pendingConn.timers[0]? = some pendingTimer ∧
    pendingTimer.cancelled = false ∧ pendingTimer.fired = false ∧
    ((handleResponse pendingConn "u" (makeOkStatus .null)).resolutions =
        pendingConn.resolutions ++ [("u", makeOkStatus .null)] ∧
     (handleResponse pendingConn "u" (makeOkStatus .null)).timers[0]? =
        some { pendingTimer with cancelled := true } ∧
     (handleResponse pendingConn "u" (makeOkStatus .null)).outstanding_calls =
        pendingConn.outstanding_calls ∧
     fireTimer (handleResponse pendingConn "u" (makeOkStatus .null)) 0 =
        handleResponse pendingConn "u" (makeOkStatus .null)) :=
  ⟨rfl, rfl, rfl, rfl,
   response_resolves_and_cancels_timer pendingConn "u" (makeOkStatus .null) 0
     pendingTimer rfl rfl rfl rfl⟩

/-- C3 counterexample: the timeout for `new_game` resolves with the message
`Async socket call new_game timed out after 1 second`, not the claimed
`new_game timed out after 1 second` — the code prefixes
`Async socket call `. -/
theorem timeout_message_has_prefix :
    (fireTimer pendingConn 0).resolutions =
      [("u", makeErrStatus .messageTimeout
        "Async socket call new_game timed out after 1 second")] ∧
    "Async socket call new_game timed out after 1 second" ≠
      "new_game timed out after 1 second" := by
  decide

/-- C3 (amended): when a live deadline timer with the default 1000 ms
timeout fires before any matching response cancelled it, the entry is
removed from `outstanding_calls` and the call resolves with
`Err(MessageTimeout, "Async socket call <event> timed out after 1
second")`; the constructor's default timeout is 1000 ms. -/
theorem timeout_removes_entry_and_resolves (c : Conn) (tid : Nat) (t : Timer)
    (ht : c.timers[tid]? = some t)
    (hcan : t.cancelled = false) (hf : t.fired = false)
    (hms : t.timeout_ms = 1000) :
    (fireTimer c tid).outstanding_calls.lookup t.uuid = none ∧
    (fireTimer c tid).resolutions = c.resolutions ++
      [(t.uuid, makeErrStatus .messageTimeout (timeoutMessage t.event_name 1000))] ∧
    timeoutMessage "new_game" 1000 = "Async socket call new_game timed out after 1 second" ∧
    initConn.timeout = 1000 := by
  have hfire : fireTimer c tid =
      { c with timers := markTimerFired c.timers tid,
               outstanding_calls := assocDelete c.outstanding_calls t.uuid,
               resolutions := c.resolutions ++
                 [(t.uuid, timeoutErrStatus t.event_name t.timeout_ms)] } := by
    simp [fireTimer, ht, hcan, hf]
  refine ⟨?_, ?_, by decide, rfl⟩
  · rw [hfire]
    exact lookup_assocDelete c.outstanding_calls t.uuid
  · rw [hfire, hms]
    simp [timeoutErrStatus]

/-- Witness for C3 (amended) at the concrete pending connection. -/
theorem timeout_removes_entry_and_resolves_witness :
    pendingConn.timers[0]? = some pendingTimer ∧
    pendingTimer.cancelled = false ∧ pendingTimer.fired = false ∧
    pendingTimer.timeout_ms = 1000 ∧
    ((fireTimer pendingConn 0).outstanding_calls.lookup "u" = none ∧
     (fireTimer pendingConn 0).resolutions = pendingConn.resolutions ++
       [("u", makeErrStatus .messageTimeout (timeoutMessage "new_game" 1000))] ∧
     timeoutMessage "new_game" 1000 = "Async socket call new_game timed out after 1 second" ∧
     initConn.timeout = 1000) :=
  ⟨rfl, rfl, rfl, rfl,
   timeout_removes_entry_and_resolves pendingConn 0 pendingTimer rfl rfl rfl rfl⟩

/-- C4: `call` instantiated at an event name outside
`CallResponseEvents<ListenEvents, EmitEvents>` (no `<event>_req`/`<event>_res`
pair across the two maps) is rejected by the type-level bound before any
runtime step exists, so no `Call` frame is ever sent — a compile failure,
not a swallowed no-op. -/
theorem invalid_call_never_sends (listenEvents emitEvents : List String)
    (c : Conn) (event_name uuid : String) (args : JSList)
    (h : (callResponseEvents listenEvents emitEvents).contains event_name = false) :
    typedCall listenEvents emitEvents c event_name uuid args = none := by
  unfold typedCall
  rw [h]
  simp

/-- Witness for C4 on the onoro event maps: `bogus` has no
`bogus_req`/`bogus_res` pair, so its `call` is rejected. -/
theorem invalid_call_never_sends_witness :
    (callResponseEvents onoroListenEvents onoroEmitEvents).contains "bogus" = false ∧
    typedCall onoroListenEvents onoroEmitEvents initConn "bogus" "u" .nil = none :=
  ⟨by decide,
   invalid_call_never_sends onoroListenEvents onoroEmitEvents initConn "bogus" "u" .nil
     (by decide)⟩

/-- C6 counterexample: a no-argument `call` puts `args: []` (the spread
rest-parameter array) on the wire, not `args: null`, and a frame whose
`args` is `null` fails `isCallMessage` (`Array.isArray(null)` is false), so
null-args frames are invalid on decode. -/
theorem noarg_call_sends_empty_array_not_null :
    (call initConn "new_game" "u" .nil).sent =
      [.obj (fieldsOf [("call", .obj (fieldsOf
        [("event", .str "new_game"), ("uuid", .str "u"), ("args", .arr .nil)]))])] ∧
    JSValue.arr .nil ≠ JSValue.null ∧
    isCallMessage (.obj (fieldsOf
      [("event", .str "new_game"), ("uuid", .str "u"), ("args", .null)])) = false := by
  decide

/-- C6 (amended): a no-argument `emit` or `call` sends a frame whose `args`
is the empty array (never `null`), and frames with `null` args are rejected
by the decode validators, which require an array. -/
theorem noarg_frames_carry_empty_array (c : Conn) (ev u : String) :
    (emit c ev .nil).sent = c.sent ++
      [.obj (fieldsOf [("emit", .obj (fieldsOf [("event", .str ev), ("args", .arr .nil)]))])] ∧
    (call c ev u .nil).sent = c.sent ++
      [.obj (fieldsOf [("call", .obj (fieldsOf
        [("event", .str ev), ("uuid", .str u), ("args", .arr .nil)]))])] ∧
    isEmitMessage (.obj (fieldsOf [("event", .str ev), ("args", .null)])) = false ∧
    isCallMessage (.obj (fieldsOf
      [("event", .str ev), ("uuid", .str u), ("args", .null)])) = false := by
  refine ⟨?_, ?_, ?_, ?_⟩
  · simp [emit, sendMessage, encodeValue, encodeFields, encodeList, isStatus,
      hasField, getField, fieldsOf]
  · simp [call, addTimeout, sendMessage, encodeValue, encodeFields, encodeList,
      isStatus, hasField, getField, fieldsOf]
  · simp [isEmitMessage, hasField, getField, fieldsOf, isStringVal, isArrayVal]
  · simp [isCallMessage, hasField, getField, fieldsOf, isStringVal, isArrayVal]

/-- C7: inbound data that is not a string, is not JSON, or parses to
anything failing the three frame-shape validators is logged and dropped:
the entire effect of `onMessage` is one log line — no listener callback
runs, no pending call is resolved or removed, no timer changes, and nothing
is sent.  All model functions are total, so no exception escapes (the
`JSON.parse` throw is caught inside `parseMessage`). -/
theorem malformed_inbound_no_effect (c : Conn) (d : Option JSValue)
    (h : isMessage (parseMessage d) = false) :
    (onMessage c d).listeners = c.listeners ∧
    (onMessage c d).outstanding_calls = c.outstanding_calls ∧
    (onMessage c d).timers = c.timers ∧
    (onMessage c d).resolutions = c.resolutions ∧
    (onMessage c d).handled = c.handled ∧
    (onMessage c d).sent = c.sent ∧
    (onMessage c d).log = c.log ++ ["ill-formed message"] := by
  simp [onMessage, h]

/-- Witness for C7: non-JSON text (a parse failure, modelled by `none`)
leaves the pending connection untouched apart from the log. -/
theorem malformed_inbound_no_effect_witness :
    isMessage (parseMessage none) = false ∧
    ((onMessage pendingConn none).listeners = pendingConn.listeners ∧
     (onMessage pendingConn none).outstanding_calls = pendingConn.outstanding_calls ∧
     (onMessage pendingConn none).timers = pendingConn.timers ∧
     (onMessage pendingConn none).resolutions = pendingConn.resolutions ∧
     (onMessage pendingConn none).handled = pendingConn.handled ∧
     (onMessage pendingConn none).sent = pendingConn.sent ∧
     (onMessage pendingConn none).log = pendingConn.log ++ ["ill-formed message"]) :=
  ⟨rfl, malformed_inbound_no_effect pendingConn none rfl⟩

/-- A frame containing a genuine nested status (fine) next to a value that
merely looks like the serialized two-field form (not a status): the reviver
swallows the latter, so the round trip is not the identity on it. -/
def junkFrame : JSValue :=
  .obj (fieldsOf [("emit", .obj (fieldsOf [("event", .str "e"),
    ("args", .arr (listOf [makeOkStatus .null,
      .obj (fieldsOf [("status", .str "NotFound"), ("payload", .str "m")])]))]))])

/-- C5 counterexample: `junkFrame` carries a nested `Status` inside its
`args` array, yet decoding its encoding does not reproduce it — the
serialized-shaped non-status element is turned into a status by the
reviver's inverse substitution. -/
theorem nested_roundtrip_fails_on_serialized_shape :
    parseMessage (some (encodeValue junkFrame)) ≠ junkFrame := by
  decide

/-- C5 (amended): frame encoding and decoding restore every nested `Status`
and reproduce the original frame, provided the frame is `wireSafe`: its
embedded statuses are exactly the canonical `{status, value}` /
`{status, message}` records and no embedded value is already shaped like
the two-field serialized form with a tag the `in` check accepts (an enum
key, or an `Object.prototype` name such as `toString` — the prototype chain
makes those pass `isSerializedStatus` too, so `wireSafe` excludes them). -/
theorem frame_roundtrip_wireSafe (c : Conn) (f : JSValue)
    (h : wireSafe f = true) :
    (sendMessage c f).sent = c.sent ++ [encodeValue f] ∧
    parseMessage (some (encodeValue f)) = f :=
  ⟨rfl, decode_encodeValue f h⟩

/-- A response frame with statuses nested two levels deep (an error status
inside the array payload of the outer `Ok` status). -/
def sampleFrame : JSValue :=
  .obj (fieldsOf [("response", .obj (fieldsOf [("uuid", .str "u"),
    ("status", makeOkStatus (.arr (listOf
      [.num 3, makeErrStatus .notFound "missing"])))]))])

/-- Witness for C5 (amended) at `sampleFrame`. -/
theorem frame_roundtrip_wireSafe_witness :
    wireSafe sampleFrame = true ∧
    ((sendMessage initConn sampleFrame).sent = initConn.sent ++ [encodeValue sampleFrame] ∧
     parseMessage (some (encodeValue sampleFrame)) = sampleFrame) :=
  ⟨by decide, frame_roundtrip_wireSafe initConn sampleFrame (by decide)⟩

end AsyncSocket

